import Mathlib

/-!
Shallow embedding of `checker.py` (testcase verdict computation of the
tc-validator grading harness), together with a model of the filesystem
state the checker reads and of the external GNU `diff` tool it spawns.

The embedding follows the source:
* `CheckerBase.get_perms`, `CheckerBase.diff`, `CheckerBase.diff_dir`,
  `CheckerBase.find_cio_pairs`, `CheckerBase.find_file_pairs` and
  `CheckerBase.collect_result` are translated line by line from
  `src/checker.py`.
* The filesystem is modelled as finite trees of entries; the kind of an
  entry is the kind *after* path resolution, matching the source's use of
  `Path.resolve()` followed by `is_file()` / `is_dir()` (both of which
  follow symlinks).  Entries that are neither regular files nor
  directories after resolution (device files, broken symlinks, ...) are
  modelled by `FSTree.other`.
* `exec` of GNU `diff --no-dereference -s -- p1 p2` is modelled by
  `execDiff`: exit code 0 plus the `--report-identical-files` message
  when both files are readable and byte-identical, exit code 1 plus the
  textual diff when both are readable and different, and exit code 2
  (with empty stdout) when the tool cannot read an input.
* The status constants and well-known file names come from the external
  module `notBaekjunCommon`, which is not part of the repository's
  sources.  They are modelled from the spec and the source's docstrings:
  `DIFF_PASS = 0`, `DIFF_FAIL = 1`, `DIFF_ERR = 2` ("status = 0 for
  identical, = 1 for different, = 2 for error"), and the directory roots
  / console file names are abstract parameters (`Root`, `RunnerEnv`).
-/

mutual

/-- A filesystem entry, as seen after path resolution.  A regular file
carries its byte content and whether the current user can read it; a
directory carries its `st_mode` and its children; `other` stands for any
entry kind that is neither a regular file nor a directory after
resolution (device file, socket, broken symlink, ...). -/
inductive FSTree where
  | file (content : String) (readable : Bool)
  | dir (mode : Nat) (children : Entries)
  | other
deriving Repr, DecidableEq

/-- The children of a directory: a finite list of named entries. -/
inductive Entries where
  | nil
  | cons (name : String) (t : FSTree) (rest : Entries)
deriving Repr, DecidableEq

end

/-- The children of a directory as a list of named entries
(`os.scandir` order). -/
def Entries.toList : Entries → List (String × FSTree)
  | Entries.nil => []
  | Entries.cons n t rest => (n, t) :: rest.toList

/-- The names of the entries of a directory. -/
def Entries.names : Entries → List String
  | Entries.nil => []
  | Entries.cons n _ rest => n :: rest.names

/-- Lookup of a direct child by name.  On a real filesystem sibling
names are unique; on the model, the first match wins. -/
def childLookup : Entries → String → Option FSTree
  | Entries.nil, _ => none
  | Entries.cons n t rest, m => if n = m then some t else childLookup rest m

/-- Follow a relative path downward from a tree node. -/
def descend : FSTree → List String → Option FSTree
  | t, [] => some t
  | t, m :: rest =>
    match t with
    | FSTree.dir _ cs =>
      match childLookup cs m with
      | some t' => descend t' rest
      | none => none
    | _ => none

/-- Resolve a nonempty relative path against a directory's children;
the empty path (the root directory itself) resolves to nothing, since
the checker only ever compares entries strictly below the roots. -/
def lookupE (cs : Entries) : List String → Option FSTree
  | [] => none
  | m :: rest =>
    match childLookup cs m with
    | some t' => descend t' rest
    | none => none

mutual

/-- Well-formedness of a real directory entry: sibling names are unique,
at every depth.  Every actual filesystem state satisfies this. -/
def wfT : FSTree → Bool
  | FSTree.dir _ cs => wfL cs
  | _ => true

/-- Well-formedness of a children list: see `wfT`. -/
def wfL : Entries → Bool
  | Entries.nil => true
  | Entries.cons n t rest => !((Entries.names rest).contains n) && wfT t && wfL rest

end

mutual

/-- `pathlib.Path.rglob("*")` on one named entry: the entry itself and,
recursively, everything below it, as paths relative to the entry's
parent. -/
def rglobT (n : String) : FSTree → List (List String)
  | FSTree.dir _ cs => [n] :: (rglobL cs).map fun p => n :: p
  | _ => [[n]]

/-- `pathlib.Path.rglob("*")` over a children list: see `rglobT`. -/
def rglobL : Entries → List (List String)
  | Entries.nil => []
  | Entries.cons n t rest => rglobT n t ++ rglobL rest

end

/-- The four well-known directory roots of `RunnerEnv`:
`EXPECTED_CONSOLE`, `OUTPUT_DIR`, `EXPECTED_FILE`, `HOME_DIR`. -/
inductive Root where
  | EXPECTED_CONSOLE
  | OUTPUT_DIR
  | EXPECTED_FILE
  | HOME_DIR
deriving Repr, DecidableEq

/-- An absolute path: one of the four roots plus a relative component
list.  `Path.resolve()` is the identity on this representation. -/
structure FPath where
  root : Root
  parts : List String
deriving Repr, DecidableEq

/-- `Path.name`: the final path component. -/
def FPath.name (p : FPath) : String := (p.parts.getLast?).getD ""

/-- Modelled from the spec: the root directory constants of the external
`notBaekjunCommon` module rendered as absolute POSIX strings (the exact
prefixes are configuration owned by that module; only determinism
matters here). -/
def Root.str : Root → String
  | Root.EXPECTED_CONSOLE => "/judge/expected_console"
  | Root.OUTPUT_DIR => "/judge/output"
  | Root.EXPECTED_FILE => "/judge/expected_file"
  | Root.HOME_DIR => "/judge/home"

/-- `Path.as_posix()` of a resolved absolute path. -/
def FPath.posix (p : FPath) : String :=
  p.root.str ++ String.join (p.parts.map fun s => "/" ++ s)

/-- The filesystem state the checker reads: the contents of the four
roots. -/
structure FS where
  EXPECTED_CONSOLE : Entries
  OUTPUT_DIR : Entries
  EXPECTED_FILE : Entries
  HOME_DIR : Entries
deriving Repr, DecidableEq

def FS.childrenOf (fs : FS) : Root → Entries
  | Root.EXPECTED_CONSOLE => fs.EXPECTED_CONSOLE
  | Root.OUTPUT_DIR => fs.OUTPUT_DIR
  | Root.EXPECTED_FILE => fs.EXPECTED_FILE
  | Root.HOME_DIR => fs.HOME_DIR

/-- Resolve an absolute path against the filesystem state. -/
def FS.lookup (fs : FS) (p : FPath) : Option FSTree :=
  lookupE (fs.childrenOf p.root) p.parts

/-- `Path.is_file()` (follows symlinks; `False` for a missing path). -/
def is_file : Option FSTree → Bool
  | some (FSTree.file _ _) => true
  | _ => false

/-- `Path.is_dir()` (follows symlinks; `False` for a missing path). -/
def is_dir : Option FSTree → Bool
  | some (FSTree.dir _ _) => true
  | _ => false

/-- The bytes `diff` obtains when it opens a path: `some` content for a
readable regular file, `none` otherwise (missing, unreadable, wrong
kind). -/
def readContent : Option FSTree → Option String
  | some (FSTree.file c true) => some c
  | _ => none

/-- `st_mode` of an entry.  Only directory modes are modelled, since the
source applies `get_perms` to directories only. -/
def stModeOf : Option FSTree → Nat
  | some (FSTree.dir m _) => m
  | _ => 0

/-- `stat.S_IMODE`: the low 12 permission bits of a mode. -/
def stat_S_IMODE (m : Nat) : Nat := m % 2 ^ 12

/-- Modelled from the spec: status constants of the external
`notBaekjunCommon` module, per the source docstring "status = 0 for
identical, = 1 for different, = 2 for error". -/
def RunnerEnv.DIFF_PASS : Int := 0

def RunnerEnv.DIFF_FAIL : Int := 1

def RunnerEnv.DIFF_ERR : Int := 2

/-- Modelled from the spec: the well-known console file names
`F_STDIN`, `F_STDOUT`, `F_STDERR` of the external `notBaekjunCommon`
module, kept abstract. -/
structure RunnerEnv where
  F_STDIN : String
  F_STDOUT : String
  F_STDERR : String
deriving Repr, DecidableEq

/-- Result of `exec` (a `subprocess.run` wrapper with captured text
output). -/
structure ExecResult where
  returncode : Int
  stdout : String
deriving Repr, DecidableEq

/-- Model of the textual output of GNU `diff` on two differing readable
files.  The exact format is immaterial to the checker, which passes the
text through verbatim; any deterministic function of the two contents is
a faithful model. -/
def diffText (c1 c2 : String) : String :=
  "< " ++ c1 ++ "\x0a---\x0a> " ++ c2 ++ "\x0a"

/-- The message GNU `diff` prints for byte-identical files when invoked
with `-s` (`--report-identical-files`), as the source does. -/
def identicalMsg (p1 p2 : String) : String :=
  "Files " ++ p1 ++ " and " ++ p2 ++ " are identical\x0a"

/-- Model of `exec([*CheckerBase.DIFF, path1.as_posix(), path2.as_posix()])`
with `CheckerBase.DIFF = "diff --no-dereference -s --".split()`:
exit 0 and the identical-files report when both inputs are readable and
equal, exit 1 and the diff text when both are readable and different,
exit 2 (trouble) with empty stdout when an input cannot be read. -/
def execDiff (fs : FS) (path1 path2 : FPath) : ExecResult :=
  match readContent (fs.lookup path1), readContent (fs.lookup path2) with
  | some c1, some c2 =>
    if c1 = c2 then ⟨0, identicalMsg path1.posix path2.posix⟩
    else ⟨1, diffText c1 c2⟩
  | _, _ => ⟨2, ""⟩

/-- `CheckerBase.diff`: diff two files, returning `(status, diff output)`. -/
def CheckerBase.diff (fs : FS) (path1 path2 : FPath) : Int × String :=
  if !(is_file (fs.lookup path1)) || !(is_file (fs.lookup path2)) then
    (RunnerEnv.DIFF_ERR, "")
  else
    let res := execDiff fs path1 path2
    (res.returncode, res.stdout)

/-- `CheckerBase.get_perms`: "Return 4 octal digit permission as int". -/
def CheckerBase.get_perms (fs : FS) (path : FPath) : Nat :=
  stat_S_IMODE (stModeOf (fs.lookup path))

/-- `CheckerBase.diff_dir`: compare two directories, returning
`(status, bitmask)`. -/
def CheckerBase.diff_dir (fs : FS) (path1 path2 : FPath) : Int × Nat :=
  if !(is_dir (fs.lookup path1)) || !(is_dir (fs.lookup path2)) then
    (RunnerEnv.DIFF_ERR, 0)
  else
    let perm1 := CheckerBase.get_perms fs path1
    let perm2 := CheckerBase.get_perms fs path2
    let status := if perm1 = perm2 then RunnerEnv.DIFF_PASS else RunnerEnv.DIFF_FAIL
    (status, perm1 ^^^ perm2)

/-- `CheckerBase.find_cio_pairs`: every entry of `EXPECTED_CONSOLE`
whose name is not `F_STDIN` is paired with the same name under
`OUTPUT_DIR`. -/
def CheckerBase.find_cio_pairs (env : RunnerEnv) (fs : FS) : List (FPath × FPath) :=
  fs.EXPECTED_CONSOLE.toList.filterMap fun c =>
    if c.1 ≠ env.F_STDIN then
      some (⟨Root.EXPECTED_CONSOLE, [c.1]⟩, ⟨Root.OUTPUT_DIR, [c.1]⟩)
    else none

/-- `CheckerBase.find_file_pairs`: every entry of
`EXPECTED_FILE.rglob("*")` is paired with the same relative path under
`HOME_DIR`. -/
def CheckerBase.find_file_pairs (fs : FS) : List (FPath × FPath) :=
  (rglobL fs.EXPECTED_FILE).map fun part =>
    (⟨Root.EXPECTED_FILE, part⟩, ⟨Root.HOME_DIR, part⟩)

/-- A comparison payload as stored in the file mapping: a textual diff
for regular files, a permission bitmask for directories. -/
inductive Payload where
  | text (s : String)
  | mask (m : Nat)
deriving Repr, DecidableEq

/-- Python `dict` assignment `d[k] = v`: update in place if the key is
present, else append. -/
def dictInsert {α : Type} (d : List (String × α)) (k : String) (v : α) :
    List (String × α) :=
  if d.any fun e => e.1 = k then
    d.map fun e => if e.1 = k then (k, v) else e
  else d ++ [(k, v)]

/-- The verdict structure assembled by `collect_result`: the `console`
and `file` dictionaries (in insertion order) and the opaque execution
status. -/
structure Verdict where
  console : List (String × (Int × String))
  file : List (String × (Int × Payload))
  status : Option Int
deriving Repr, DecidableEq

/-- The console loop of `collect_result`: dispatch each pair on the
expected file's name, raising `ValueError` on any other name. -/
def consoleLoop (env : RunnerEnv) (fs : FS) :
    List (FPath × FPath) → List (String × (Int × String)) →
      Except String (List (String × (Int × String)))
  | [], acc => Except.ok acc
  | (expected, actual) :: rest, acc =>
    if expected.name = env.F_STDOUT then
      consoleLoop env fs rest (dictInsert acc "stdout" (CheckerBase.diff fs expected actual))
    else if expected.name = env.F_STDERR then
      consoleLoop env fs rest (dictInsert acc "stderr" (CheckerBase.diff fs expected actual))
    else
      Except.error "Unexpected console IO comparison"

/-- `expected.relative_to(RunnerEnv.EXPECTED_FILE).as_posix()`. -/
def posixRel (parts : List String) : String := String.intercalate "/" parts

/-- The file loop of `collect_result`: regular files go through `diff`,
directories through `diff_dir`; any other entry kind falls through the
`if`/`elif` without a branch. -/
def fileLoop (fs : FS) :
    List (FPath × FPath) → List (String × (Int × Payload)) →
      List (String × (Int × Payload))
  | [], acc => acc
  | (expected, actual) :: rest, acc =>
    let part := posixRel expected.parts
    if is_file (fs.lookup expected) then
      fileLoop fs rest (dictInsert acc part
        ((CheckerBase.diff fs expected actual).1,
          Payload.text (CheckerBase.diff fs expected actual).2))
    else if is_dir (fs.lookup expected) then
      fileLoop fs rest (dictInsert acc part
        ((CheckerBase.diff_dir fs expected actual).1,
          Payload.mask (CheckerBase.diff_dir fs expected actual).2))
    else
      fileLoop fs rest acc

/-- `CheckerBase.collect_result`: assemble the testcase verdict, or
propagate the `ValueError` raised on an unexpected console name.
`status` is the externally assigned `self.status`. -/
def CheckerBase.collect_result (env : RunnerEnv) (fs : FS) (status : Option Int) :
    Except String Verdict :=
  match consoleLoop env fs (CheckerBase.find_cio_pairs env fs) [] with
  | Except.error e => Except.error e
  | Except.ok console =>
    Except.ok ⟨console, fileLoop fs (CheckerBase.find_file_pairs fs) [], status⟩

/-- The console-pair enumeration as the spec words it: for each entry
directly under the expected-console root whose name is not the stdin
name, the pair `(entry, actual console root / name)` — written as a
spec-side recursion for the refinement statement of the resolver. -/
def specConsolePairs (env : RunnerEnv) : List (String × FSTree) → List (FPath × FPath)
  | [] => []
  | c :: rest =>
    if c.1 ≠ env.F_STDIN then
      (⟨Root.EXPECTED_CONSOLE, [c.1]⟩, ⟨Root.OUTPUT_DIR, [c.1]⟩) ::
        specConsolePairs env rest
    else specConsolePairs env rest

/-- A concrete console-name configuration for the evaluation theorems
and witnesses. -/
def envStd : RunnerEnv := ⟨"stdin", "stdout", "stderr"⟩

/-- Failing input for the unsupported-entry-kind claim: the
expected-file root holds a single entry `dev` that is neither a regular
file nor a directory. -/
def fsC1 : FS :=
  { EXPECTED_CONSOLE := Entries.nil
    OUTPUT_DIR := Entries.nil
    EXPECTED_FILE := Entries.cons "dev" FSTree.other Entries.nil
    HOME_DIR := Entries.nil }

/-- Expected and actual file roots holding byte-identical copies of
`a.txt`. -/
def fsIdent : FS :=
  { EXPECTED_CONSOLE := Entries.nil
    OUTPUT_DIR := Entries.nil
    EXPECTED_FILE := Entries.cons "a.txt" (FSTree.file "5\x0a" true) Entries.nil
    HOME_DIR := Entries.cons "a.txt" (FSTree.file "5\x0a" true) Entries.nil }

def pIdentE : FPath := ⟨Root.EXPECTED_FILE, ["a.txt"]⟩

def pIdentA : FPath := ⟨Root.HOME_DIR, ["a.txt"]⟩

/-- Expected and actual file roots holding differing copies of `b.txt`. -/
def fsDiffer : FS :=
  { EXPECTED_CONSOLE := Entries.nil
    OUTPUT_DIR := Entries.nil
    EXPECTED_FILE := Entries.cons "b.txt" (FSTree.file "5\x0a" true) Entries.nil
    HOME_DIR := Entries.cons "b.txt" (FSTree.file "6\x0a" true) Entries.nil }

/-- An expected-file root with a nested entry `out/a.txt` and an empty
actual root. -/
def fsNested : FS :=
  { EXPECTED_CONSOLE := Entries.nil
    OUTPUT_DIR := Entries.nil
    EXPECTED_FILE := Entries.cons "out"
      (FSTree.dir 0o40755 (Entries.cons "a.txt" (FSTree.file "x" true) Entries.nil))
      Entries.nil
    HOME_DIR := Entries.nil }

/-- Expected and actual file roots holding directories `d` with modes
`0755` and `0744`. -/
def fsPerm : FS :=
  { EXPECTED_CONSOLE := Entries.nil
    OUTPUT_DIR := Entries.nil
    EXPECTED_FILE := Entries.cons "d" (FSTree.dir 0o40755 Entries.nil) Entries.nil
    HOME_DIR := Entries.cons "d" (FSTree.dir 0o40744 Entries.nil) Entries.nil }

def pPermE : FPath := ⟨Root.EXPECTED_FILE, ["d"]⟩

def pPermA : FPath := ⟨Root.HOME_DIR, ["d"]⟩

/-- A console root whose only entry has a name that is neither the
stdin, stdout nor stderr name. -/
def fsBadConsole : FS :=
  { EXPECTED_CONSOLE := Entries.cons "bogus" (FSTree.file "" true) Entries.nil
    OUTPUT_DIR := Entries.nil
    EXPECTED_FILE := Entries.nil
    HOME_DIR := Entries.nil }

/-- A well-formed console scenario: expected stdout `5\n`, actual
stdout `5\n`. -/
def fsGoodConsole : FS :=
  { EXPECTED_CONSOLE := Entries.cons "stdout" (FSTree.file "5\x0a" true) Entries.nil
    OUTPUT_DIR := Entries.cons "stdout" (FSTree.file "5\x0a" true) Entries.nil
    EXPECTED_FILE := Entries.nil
    HOME_DIR := Entries.nil }

theorem mem_names_of_childLookup {cs : Entries} {m : String} {t' : FSTree}
    (h : childLookup cs m = some t') : m ∈ Entries.names cs := by
  match cs with
  | Entries.nil => simp [childLookup] at h
  | Entries.cons n t rest =>
    simp only [childLookup] at h
    by_cases hn : n = m
    · simp [Entries.names, hn]
    · simp only [hn, if_false] at h
      simp [Entries.names, mem_names_of_childLookup h]

mutual

theorem mem_rglobT_of_descend (n : String) (t : FSTree) (rest : List String)
    (h : (descend t rest).isSome = true) : n :: rest ∈ rglobT n t := by
  cases t with
  | dir m cs =>
    cases rest with
    | nil => simp [rglobT]
    | cons m' tl =>
      simp only [descend] at h
      cases hcl : childLookup cs m' with
      | none => rw [hcl] at h; simp at h
      | some t' =>
        rw [hcl] at h
        have hmem : m' :: tl ∈ rglobL cs :=
          mem_rglobL_of_lookupE cs (m' :: tl) (by simp [lookupE, hcl, h])
        simp only [rglobT, List.mem_cons, List.mem_map]
        exact Or.inr ⟨m' :: tl, hmem, rfl⟩
  | file c r =>
    cases rest with
    | nil => simp [rglobT]
    | cons m' tl => simp [descend] at h
  | other =>
    cases rest with
    | nil => simp [rglobT]
    | cons m' tl => simp [descend] at h

theorem mem_rglobL_of_lookupE (cs : Entries) (p : List String)
    (h : (lookupE cs p).isSome = true) : p ∈ rglobL cs := by
  cases p with
  | nil => simp [lookupE] at h
  | cons m tl =>
    cases cs with
    | nil => simp [lookupE, childLookup] at h
    | cons n t rest =>
      simp only [lookupE, childLookup] at h
      by_cases hn : n = m
      · subst hn
        simp only [if_pos rfl] at h
        have := mem_rglobT_of_descend n t tl h
        simp [rglobL, List.mem_append, this]
      · simp only [hn, if_false] at h
        have : m :: tl ∈ rglobL rest :=
          mem_rglobL_of_lookupE rest (m :: tl) (by simp [lookupE]; exact h)
        simp [rglobL, List.mem_append, this]

end

mutual

theorem descend_of_mem_rglobT (n : String) (t : FSTree) (p : List String)
    (hwf : wfT t = true) (h : p ∈ rglobT n t) :
    ∃ rest, p = n :: rest ∧ (descend t rest).isSome = true := by
  cases t with
  | dir m cs =>
    simp only [rglobT, List.mem_cons, List.mem_map] at h
    rcases h with h | ⟨q, hq, rfl⟩
    · exact ⟨[], h, rfl⟩
    · have hl : (lookupE cs q).isSome = true :=
        lookupE_of_mem_rglobL cs q (by simpa [wfT] using hwf) hq
      refine ⟨q, rfl, ?_⟩
      cases q with
      | nil => simp [lookupE] at hl
      | cons m' tl =>
        simp only [lookupE] at hl
        simpa [descend] using hl
  | file c r =>
    simp only [rglobT, List.mem_singleton] at h
    exact ⟨[], h, rfl⟩
  | other =>
    simp only [rglobT, List.mem_singleton] at h
    exact ⟨[], h, rfl⟩

theorem lookupE_of_mem_rglobL (cs : Entries) (p : List String)
    (hwf : wfL cs = true) (h : p ∈ rglobL cs) : (lookupE cs p).isSome = true := by
  cases cs with
  | nil => simp [rglobL] at h
  | cons n t rest =>
    simp only [wfL, Bool.and_eq_true, Bool.not_eq_true'] at hwf
    obtain ⟨⟨hnodup, hwt⟩, hwl⟩ := hwf
    simp only [rglobL, List.mem_append] at h
    rcases h with h | h
    · obtain ⟨tl, rfl, hd⟩ := descend_of_mem_rglobT n t p hwt h
      simp [lookupE, childLookup, hd]
    · have hl := lookupE_of_mem_rglobL rest p hwl h
      cases p with
      | nil => simp [lookupE] at hl
      | cons m tl =>
        simp only [lookupE] at hl ⊢
        by_cases hn : n = m
        · subst hn
          cases hcl : childLookup rest n with
          | none => rw [hcl] at hl; simp at hl
          | some t' =>
            have : n ∈ Entries.names rest := mem_names_of_childLookup hcl
            have : (Entries.names rest).contains n = true := by simpa using this
            rw [this] at hnodup
            simp at hnodup
        · simp only [childLookup, hn, if_false]
          exact hl

end

/-- `readContent` only succeeds on regular files. -/
theorem is_file_of_readContent {o : Option FSTree} {c : String}
    (h : readContent o = some c) : is_file o = true := by
  match o with
  | none => simp [readContent] at h
  | some (FSTree.file c' r) => simp [is_file]
  | some (FSTree.dir m cs) => simp [readContent] at h
  | some FSTree.other => simp [readContent] at h

/-- C1: the claim requires every entry under the expected-file root —
including entries that are neither regular files nor directories — to
produce exactly one `ERROR`-status entry in the file mapping.  The code
violates this: on `fsC1`, whose expected-file root holds exactly the
unsupported entry `dev`, the resolver does emit the pair for `dev`, but
`collect_result`'s `if is_file / elif is_dir` dispatch has no final
branch, so the returned file mapping is empty — the entry is silently
dropped instead of reported as `ERROR`. -/
theorem collect_result_drops_unsupported_entry :
    CheckerBase.find_file_pairs fsC1 =
      [(⟨Root.EXPECTED_FILE, ["dev"]⟩, ⟨Root.HOME_DIR, ["dev"]⟩)] ∧
    CheckerBase.collect_result envStd fsC1 none =
      Except.ok ⟨[], [], none⟩ :=
  ⟨rfl, rfl⟩

/-- C2 (counterexample): comparing `a.txt` against a byte-identical
copy yields status `IDENTICAL`, but — because the source invokes `diff`
with `-s` (`--report-identical-files`) — the payload is the tool's
identical-files report, not the empty string the claim demands. -/
theorem diff_identical_payload_nonempty_cex :
    (CheckerBase.diff fsIdent pIdentE pIdentA).1 = RunnerEnv.DIFF_PASS ∧
    (CheckerBase.diff fsIdent pIdentE pIdentA).2 ≠ "" := by
  constructor
  · rfl
  · decide

/-- C2 (amended): for byte-identical readable regular files the
comparison returns status `IDENTICAL`, with the diff tool's
identical-files report — a nonempty string — as payload (the source
passes `-s` to `diff`, so the payload is never empty on identical
files). -/
theorem diff_identical_report (fs : FS) (path1 path2 : FPath) (c : String)
    (h1 : readContent (fs.lookup path1) = some c)
    (h2 : readContent (fs.lookup path2) = some c) :
    CheckerBase.diff fs path1 path2 =
      (RunnerEnv.DIFF_PASS, identicalMsg path1.posix path2.posix) ∧
    identicalMsg path1.posix path2.posix ≠ "" := by
  have hf1 := is_file_of_readContent h1
  have hf2 := is_file_of_readContent h2
  constructor
  · simp only [CheckerBase.diff, hf1, hf2, Bool.not_true, Bool.or_self,
      Bool.false_eq_true, if_false, execDiff, h1, h2, if_pos rfl]
    rfl
  · intro hcontra
    have := congrArg String.length hcontra
    simp [identicalMsg, String.length_append] at this
    exact absurd this.2 (by decide)

/-- C2 witness. -/
theorem diff_identical_report_witness :
    CheckerBase.diff fsIdent pIdentE pIdentA =
      (RunnerEnv.DIFF_PASS, identicalMsg pIdentE.posix pIdentA.posix) :=
  (diff_identical_report fsIdent pIdentE pIdentA "5\x0a" rfl rfl).1

/-- `readContent` fails on anything that is not a regular file. -/
theorem readContent_none_of_not_file {o : Option FSTree} (h : is_file o = false) :
    readContent o = none := by
  match o with
  | none => rfl
  | some (FSTree.file c r) => simp [is_file] at h
  | some (FSTree.dir m cs) => rfl
  | some FSTree.other => rfl

/-- Unfolding of `CheckerBase.diff` when both inputs are readable
regular files. -/
theorem diff_eq_of_some_some {fs : FS} {path1 path2 : FPath} {c1 c2 : String}
    (h1 : readContent (fs.lookup path1) = some c1)
    (h2 : readContent (fs.lookup path2) = some c2) :
    CheckerBase.diff fs path1 path2 =
      if c1 = c2 then (RunnerEnv.DIFF_PASS, identicalMsg path1.posix path2.posix)
      else (RunnerEnv.DIFF_FAIL, diffText c1 c2) := by
  have hf1 := is_file_of_readContent h1
  have hf2 := is_file_of_readContent h2
  by_cases hc : c1 = c2 <;>
    simp [CheckerBase.diff, hf1, hf2, execDiff, h1, h2, hc,
      RunnerEnv.DIFF_PASS, RunnerEnv.DIFF_FAIL]

/-- Unfolding of `CheckerBase.diff` when some input cannot be read. -/
theorem diff_eq_err_of_none {fs : FS} {path1 path2 : FPath}
    (h : readContent (fs.lookup path1) = none ∨ readContent (fs.lookup path2) = none) :
    CheckerBase.diff fs path1 path2 = (RunnerEnv.DIFF_ERR, "") := by
  cases hf1 : is_file (fs.lookup path1) with
  | false => simp [CheckerBase.diff, hf1]
  | true =>
    cases hf2 : is_file (fs.lookup path2) with
    | false => simp [CheckerBase.diff, hf1, hf2]
    | true =>
      cases hr1 : readContent (fs.lookup path1) with
      | none =>
        cases hr2 : readContent (fs.lookup path2) with
        | none =>
          simp [CheckerBase.diff, hf1, hf2, execDiff, hr1, hr2, RunnerEnv.DIFF_ERR]
        | some c2 =>
          simp [CheckerBase.diff, hf1, hf2, execDiff, hr1, hr2, RunnerEnv.DIFF_ERR]
      | some c1 =>
        cases hr2 : readContent (fs.lookup path2) with
        | none =>
          simp [CheckerBase.diff, hf1, hf2, execDiff, hr1, hr2, RunnerEnv.DIFF_ERR]
        | some c2 => rcases h with h | h <;> simp_all

/-- C3: the comparison maps the diff tool's exit indicator to the
verdict status: 0 to `IDENTICAL`, 1 to `DIFFERENT` with the diff text
as payload, any other outcome (unreadable input, missing or non-regular
file) to `ERROR`; the status is always one of the three values. -/
theorem diff_exit_code_mapping (fs : FS) (path1 path2 : FPath) :
    ((CheckerBase.diff fs path1 path2).1 = RunnerEnv.DIFF_PASS ∨
      (CheckerBase.diff fs path1 path2).1 = RunnerEnv.DIFF_FAIL ∨
      (CheckerBase.diff fs path1 path2).1 = RunnerEnv.DIFF_ERR) ∧
    (∀ c1 c2, readContent (fs.lookup path1) = some c1 →
      readContent (fs.lookup path2) = some c2 →
      (c1 = c2 → CheckerBase.diff fs path1 path2 =
          (RunnerEnv.DIFF_PASS, identicalMsg path1.posix path2.posix)) ∧
      (c1 ≠ c2 → CheckerBase.diff fs path1 path2 =
          (RunnerEnv.DIFF_FAIL, diffText c1 c2))) ∧
    ((readContent (fs.lookup path1) = none ∨ readContent (fs.lookup path2) = none) →
      CheckerBase.diff fs path1 path2 = (RunnerEnv.DIFF_ERR, "")) := by
  refine ⟨?_, ?_, diff_eq_err_of_none⟩
  · cases hr1 : readContent (fs.lookup path1) with
    | none => simp [diff_eq_err_of_none (Or.inl hr1)]
    | some c1 =>
      cases hr2 : readContent (fs.lookup path2) with
      | none => simp [diff_eq_err_of_none (Or.inr hr2)]
      | some c2 =>
        rw [diff_eq_of_some_some hr1 hr2]
        by_cases hc : c1 = c2 <;> simp [hc]
  · intro c1 c2 h1 h2
    rw [diff_eq_of_some_some h1 h2]
    constructor
    · intro hc; simp [hc]
    · intro hc; simp [hc]

/-- C3 witness (at differing files: exit indicator 1, diff text
payload). -/
theorem diff_exit_code_mapping_witness :
    CheckerBase.diff fsDiffer ⟨Root.EXPECTED_FILE, ["b.txt"]⟩ ⟨Root.HOME_DIR, ["b.txt"]⟩ =
      (RunnerEnv.DIFF_FAIL, diffText "5\x0a" "6\x0a") :=
  ((diff_exit_code_mapping fsDiffer ⟨Root.EXPECTED_FILE, ["b.txt"]⟩
      ⟨Root.HOME_DIR, ["b.txt"]⟩).2.1 "5\x0a" "6\x0a" rfl rfl).2 (by decide)

/-- C4: if either input does not exist or is not a regular file (after
path resolution), the comparison returns `(ERROR, "")`; in particular
it never reports `DIFFERENT` for a missing actual-side file. -/
theorem diff_err_of_not_file (fs : FS) (path1 path2 : FPath)
    (h : is_file (fs.lookup path1) = false ∨ is_file (fs.lookup path2) = false) :
    CheckerBase.diff fs path1 path2 = (RunnerEnv.DIFF_ERR, "") ∧
    (CheckerBase.diff fs path1 path2).1 ≠ RunnerEnv.DIFF_FAIL := by
  have he : CheckerBase.diff fs path1 path2 = (RunnerEnv.DIFF_ERR, "") := by
    rcases h with h | h
    · exact diff_eq_err_of_none (Or.inl (readContent_none_of_not_file h))
    · exact diff_eq_err_of_none (Or.inr (readContent_none_of_not_file h))
  refine ⟨he, ?_⟩
  rw [he]
  decide

/-- C4 witness: an entry expected as `out/a.txt` with no actual-side
counterpart is reported as `(ERROR, "")`. -/
theorem diff_err_of_not_file_witness :
    is_file (fsNested.lookup ⟨Root.HOME_DIR, ["out", "a.txt"]⟩) = false ∧
    CheckerBase.diff fsNested ⟨Root.EXPECTED_FILE, ["out", "a.txt"]⟩
      ⟨Root.HOME_DIR, ["out", "a.txt"]⟩ = (RunnerEnv.DIFF_ERR, "") :=
  ⟨rfl, (diff_err_of_not_file fsNested ⟨Root.EXPECTED_FILE, ["out", "a.txt"]⟩
    ⟨Root.HOME_DIR, ["out", "a.txt"]⟩ (Or.inr rfl)).1⟩

/-- C5: directory comparison returns `(ERROR, 0)` unless both inputs
are directories; otherwise it compares the low 12 permission bits and
returns `(IDENTICAL, 0)` on equality and `(DIFFERENT, a XOR b)`
otherwise; for modes `0755` and `0744` the result is
`(DIFFERENT, 0o011)`. -/
theorem diff_dir_spec (fs : FS) (path1 path2 : FPath) :
    ((is_dir (fs.lookup path1) = false ∨ is_dir (fs.lookup path2) = false) →
      CheckerBase.diff_dir fs path1 path2 = (RunnerEnv.DIFF_ERR, 0)) ∧
    (∀ m1 cs1 m2 cs2, fs.lookup path1 = some (FSTree.dir m1 cs1) →
      fs.lookup path2 = some (FSTree.dir m2 cs2) →
      CheckerBase.diff_dir fs path1 path2 =
        (if stat_S_IMODE m1 = stat_S_IMODE m2 then RunnerEnv.DIFF_PASS
          else RunnerEnv.DIFF_FAIL,
          stat_S_IMODE m1 ^^^ stat_S_IMODE m2) ∧
      (stat_S_IMODE m1 = stat_S_IMODE m2 →
        CheckerBase.diff_dir fs path1 path2 = (RunnerEnv.DIFF_PASS, 0)) ∧
      (stat_S_IMODE m1 = 0o755 → stat_S_IMODE m2 = 0o744 →
        CheckerBase.diff_dir fs path1 path2 = (RunnerEnv.DIFF_FAIL, 0o011))) := by
  constructor
  · intro h
    rcases h with h | h <;> simp [CheckerBase.diff_dir, h]
  · intro m1 cs1 m2 cs2 h1 h2
    have hd1 : is_dir (fs.lookup path1) = true := by simp [h1, is_dir]
    have hd2 : is_dir (fs.lookup path2) = true := by simp [h2, is_dir]
    have key : CheckerBase.diff_dir fs path1 path2 =
        (if stat_S_IMODE m1 = stat_S_IMODE m2 then RunnerEnv.DIFF_PASS
          else RunnerEnv.DIFF_FAIL,
          stat_S_IMODE m1 ^^^ stat_S_IMODE m2) := by
      by_cases hm : stat_S_IMODE m1 = stat_S_IMODE m2 <;>
        simp [CheckerBase.diff_dir, is_dir, CheckerBase.get_perms, h1, h2,
          stModeOf, hm]
    refine ⟨key, ?_, ?_⟩
    · intro hm
      rw [key, if_pos hm, hm, Nat.xor_self]
    · intro hm1 hm2
      rw [key, hm1, hm2]
      decide

/-- C5 witness: directories with modes `0755` and `0744` compare as
`(DIFFERENT, 0o011)`. -/
theorem diff_dir_spec_witness :
    CheckerBase.diff_dir fsPerm pPermE pPermA = (RunnerEnv.DIFF_FAIL, 0o011) :=
  (((diff_dir_spec fsPerm pPermE pPermA).2 0o40755 Entries.nil 0o40744 Entries.nil
    rfl rfl).2.2) (by decide) (by decide)

/-- The console-pair resolver agrees with the spec-side enumeration. -/
theorem cio_filterMap_eq (env : RunnerEnv) :
    ∀ l : List (String × FSTree),
      (l.filterMap fun c =>
        if c.1 ≠ env.F_STDIN then
          some ((⟨Root.EXPECTED_CONSOLE, [c.1]⟩ : FPath),
            (⟨Root.OUTPUT_DIR, [c.1]⟩ : FPath))
        else none) = specConsolePairs env l
  | [] => rfl
  | c :: rest => by
    have ih := cio_filterMap_eq env rest
    by_cases hc : c.1 ≠ env.F_STDIN
    · simpa [List.filterMap_cons, hc, specConsolePairs] using ih
    · simpa [List.filterMap_cons, hc, specConsolePairs] using ih

/-- C6: the console-pair resolver emits, for every entry directly under
the expected-console root whose name is not the stdin name, exactly the
pair `(expected entry, OUTPUT_DIR / name)`; the stdin-named entry never
produces a pair. -/
theorem find_cio_pairs_spec (env : RunnerEnv) (fs : FS) (p q : FPath) :
    ((p, q) ∈ CheckerBase.find_cio_pairs env fs ↔
      ∃ n t, (n, t) ∈ fs.EXPECTED_CONSOLE.toList ∧ n ≠ env.F_STDIN ∧
        p = ⟨Root.EXPECTED_CONSOLE, [n]⟩ ∧ q = ⟨Root.OUTPUT_DIR, [n]⟩) ∧
    CheckerBase.find_cio_pairs env fs =
      specConsolePairs env fs.EXPECTED_CONSOLE.toList := by
  constructor
  · simp only [CheckerBase.find_cio_pairs, List.mem_filterMap]
    constructor
    · rintro ⟨c, hc, heq⟩
      by_cases hn : c.1 ≠ env.F_STDIN
      · rw [if_pos hn] at heq
        injection heq with heq
        injection heq with heq1 heq2
        exact ⟨c.1, c.2, hc, hn, heq1.symm, heq2.symm⟩
      · rw [if_neg hn] at heq
        cases heq
    · rintro ⟨n, t, hmem, hn, rfl, rfl⟩
      exact ⟨(n, t), hmem, by rw [if_pos hn]⟩
  · exact cio_filterMap_eq env fs.EXPECTED_CONSOLE.toList

/-- C7: the file-pair resolver enumerates every entry at every depth
under the expected-file root — an entry exists below the root exactly
when its pair `(expected entry, HOME_DIR / relative path)` is emitted
(for any root with unique sibling names, as on a real filesystem). -/
theorem find_file_pairs_spec (fs : FS) (hwf : wfL fs.EXPECTED_FILE = true)
    (p q : FPath) :
    (p, q) ∈ CheckerBase.find_file_pairs fs ↔
      ∃ parts, (lookupE fs.EXPECTED_FILE parts).isSome = true ∧
        p = ⟨Root.EXPECTED_FILE, parts⟩ ∧ q = ⟨Root.HOME_DIR, parts⟩ := by
  simp only [CheckerBase.find_file_pairs, List.mem_map]
  constructor
  · rintro ⟨part, hmem, heq⟩
    injection heq with heq1 heq2
    exact ⟨part, lookupE_of_mem_rglobL _ part hwf hmem, heq1.symm, heq2.symm⟩
  · rintro ⟨parts, hl, rfl, rfl⟩
    exact ⟨parts, mem_rglobL_of_lookupE _ parts hl, rfl⟩

/-- C7 witness: the depth-2 entry `out/a.txt` of `fsNested` is
enumerated. -/
theorem find_file_pairs_spec_witness :
    wfL fsNested.EXPECTED_FILE = true ∧
    ((⟨Root.EXPECTED_FILE, ["out", "a.txt"]⟩ : FPath),
      (⟨Root.HOME_DIR, ["out", "a.txt"]⟩ : FPath)) ∈
        CheckerBase.find_file_pairs fsNested :=
  ⟨by decide, (find_file_pairs_spec fsNested (by decide) _ _).mpr
    ⟨["out", "a.txt"], by decide, rfl, rfl⟩⟩

/-- If some pair in the list has an unrecognized expected name, the
console loop raises `ValueError`. -/
theorem consoleLoop_error_of_bad (env : RunnerEnv) (fs : FS) :
    ∀ (pairs : List (FPath × FPath)) (acc : List (String × (Int × String))),
      (∃ pr ∈ pairs, pr.1.name ≠ env.F_STDOUT ∧ pr.1.name ≠ env.F_STDERR) →
      consoleLoop env fs pairs acc = Except.error "Unexpected console IO comparison"
  | [], acc, h => by simp at h
  | (e, a) :: rest, acc, h => by
    rcases h with ⟨pr, hpr, hbad⟩
    rcases List.mem_cons.mp hpr with rfl | hmem
    · simp [consoleLoop, hbad.1, hbad.2]
    · by_cases h1 : e.name = env.F_STDOUT
      · simp only [consoleLoop, h1, if_true]
        exact consoleLoop_error_of_bad env fs rest _ ⟨pr, hmem, hbad⟩
      · by_cases h2 : e.name = env.F_STDERR
        · simp only [consoleLoop]
          rw [if_neg h1, if_pos h2]
          exact consoleLoop_error_of_bad env fs rest _ ⟨pr, hmem, hbad⟩
        · simp [consoleLoop, h1, h2]

/-- If every pair's expected name is the stdout or the stderr name, the
console loop completes. -/
theorem consoleLoop_ok_of_good (env : RunnerEnv) (fs : FS) :
    ∀ (pairs : List (FPath × FPath)) (acc : List (String × (Int × String))),
      (∀ pr ∈ pairs, pr.1.name = env.F_STDOUT ∨ pr.1.name = env.F_STDERR) →
      ∃ out, consoleLoop env fs pairs acc = Except.ok out
  | [], acc, _ => ⟨acc, rfl⟩
  | (e, a) :: rest, acc, h => by
    have htail : ∀ pr ∈ rest, pr.1.name = env.F_STDOUT ∨ pr.1.name = env.F_STDERR :=
      fun pr hpr => h pr (List.mem_cons_of_mem _ hpr)
    by_cases h1 : e.name = env.F_STDOUT
    · simp only [consoleLoop, h1, if_true]
      exact consoleLoop_ok_of_good env fs rest _ htail
    · rcases h (e, a) (List.mem_cons_self _ _) with h2 | h2
      · exact absurd h2 h1
      · simp only [consoleLoop]
        rw [if_neg h1, if_pos h2]
        exact consoleLoop_ok_of_good env fs rest _ htail

/-- C8: if some console pair's expected name is neither the stdout nor
the stderr name, `collect_result` raises the diagnostic and returns no
verdict; if all non-stdin entries of the expected-console root are
named stdout or stderr, no such abort occurs. -/
theorem collect_result_console_contract (env : RunnerEnv) (fs : FS) (status : Option Int) :
    ((∃ pr ∈ CheckerBase.find_cio_pairs env fs,
        pr.1.name ≠ env.F_STDOUT ∧ pr.1.name ≠ env.F_STDERR) →
      CheckerBase.collect_result env fs status =
        Except.error "Unexpected console IO comparison") ∧
    ((∀ nt ∈ fs.EXPECTED_CONSOLE.toList,
        nt.1 ≠ env.F_STDIN → nt.1 = env.F_STDOUT ∨ nt.1 = env.F_STDERR) →
      ∃ v, CheckerBase.collect_result env fs status = Except.ok v) := by
  constructor
  · intro h
    unfold CheckerBase.collect_result
    rw [consoleLoop_error_of_bad env fs _ [] h]
  · intro h
    have hgood : ∀ pr ∈ CheckerBase.find_cio_pairs env fs,
        pr.1.name = env.F_STDOUT ∨ pr.1.name = env.F_STDERR := by
      intro pr hpr
      simp only [CheckerBase.find_cio_pairs, List.mem_filterMap] at hpr
      obtain ⟨c, hc, heq⟩ := hpr
      by_cases hn : c.1 ≠ env.F_STDIN
      · rw [if_pos hn] at heq
        injection heq with heq
        have hname : pr.1.name = c.1 := by
          rw [← heq]
          simp [FPath.name]
        rw [hname]
        exact h c hc hn
      · rw [if_neg hn] at heq
        cases heq
    obtain ⟨out, hout⟩ := consoleLoop_ok_of_good env fs _ [] hgood
    unfold CheckerBase.collect_result
    rw [hout]
    exact ⟨_, rfl⟩

/-- C8 witness: a console root with only a `bogus` entry aborts; one
with only a `stdout` entry completes. -/
theorem collect_result_console_contract_witness :
    CheckerBase.collect_result envStd fsBadConsole none =
      Except.error "Unexpected console IO comparison" ∧
    ∃ v, CheckerBase.collect_result envStd fsGoodConsole none = Except.ok v :=
  ⟨(collect_result_console_contract envStd fsBadConsole none).1
      ⟨(⟨Root.EXPECTED_CONSOLE, ["bogus"]⟩, ⟨Root.OUTPUT_DIR, ["bogus"]⟩),
        by decide, by decide, by decide⟩,
    (collect_result_console_contract envStd fsGoodConsole none).2 (by decide)⟩

/-- C9: `collect_result` is a deterministic pure function of the
filesystem state under the four roots, the configured names and the
stored execution status: equal inputs give bit-identical verdicts. -/
theorem collect_result_deterministic (env1 env2 : RunnerEnv) (fs1 fs2 : FS)
    (s1 s2 : Option Int) (henv : env1 = env2) (hfs : fs1 = fs2) (hs : s1 = s2) :
    CheckerBase.collect_result env1 fs1 s1 = CheckerBase.collect_result env2 fs2 s2 := by
  subst henv
  subst hfs
  subst hs
  rfl

/-- C9 witness. -/
theorem collect_result_deterministic_witness :
    CheckerBase.collect_result envStd fsGoodConsole (some 0) =
      CheckerBase.collect_result envStd fsGoodConsole (some 0) :=
  collect_result_deterministic envStd envStd fsGoodConsole fsGoodConsole
    (some 0) (some 0) rfl rfl rfl

/-- C10: for existing directories the permission payload is a
non-negative integer below `2 ^ 12`, and it is nonzero exactly when the
status is `DIFFERENT` (zero whenever the status is `IDENTICAL` or
`ERROR`). -/
theorem diff_dir_payload_bits (fs : FS) (path1 path2 : FPath)
    (h1 : is_dir (fs.lookup path1) = true) (h2 : is_dir (fs.lookup path2) = true) :
    (CheckerBase.diff_dir fs path1 path2).2 < 2 ^ 12 ∧
    ((CheckerBase.diff_dir fs path1 path2).2 ≠ 0 ↔
      (CheckerBase.diff_dir fs path1 path2).1 = RunnerEnv.DIFF_FAIL) ∧
    ((CheckerBase.diff_dir fs path1 path2).1 = RunnerEnv.DIFF_PASS ∨
        (CheckerBase.diff_dir fs path1 path2).1 = RunnerEnv.DIFF_ERR →
      (CheckerBase.diff_dir fs path1 path2).2 = 0) := by
  have hres : CheckerBase.diff_dir fs path1 path2 =
      (if CheckerBase.get_perms fs path1 = CheckerBase.get_perms fs path2
          then RunnerEnv.DIFF_PASS else RunnerEnv.DIFF_FAIL,
        CheckerBase.get_perms fs path1 ^^^ CheckerBase.get_perms fs path2) := by
    simp [CheckerBase.diff_dir, h1, h2]
  have hlt1 : CheckerBase.get_perms fs path1 < 2 ^ 12 := by
    simp only [CheckerBase.get_perms, stat_S_IMODE]
    exact Nat.mod_lt _ (by decide)
  have hlt2 : CheckerBase.get_perms fs path2 < 2 ^ 12 := by
    simp only [CheckerBase.get_perms, stat_S_IMODE]
    exact Nat.mod_lt _ (by decide)
  rw [hres]
  by_cases hm : CheckerBase.get_perms fs path1 = CheckerBase.get_perms fs path2
  · rw [if_pos hm, hm, Nat.xor_self]
    refine ⟨by decide, ?_, fun _ => rfl⟩
    constructor
    · intro hc
      exact absurd rfl hc
    · intro hc
      exact absurd hc (by decide)
  · rw [if_neg hm]
    refine ⟨Nat.xor_lt_two_pow hlt1 hlt2, ?_, ?_⟩
    · constructor
      · intro _
        rfl
      · intro _ hxor
        exact hm (Nat.xor_eq_zero.mp hxor)
    · rintro (hc | hc) <;>
        simp [RunnerEnv.DIFF_FAIL, RunnerEnv.DIFF_PASS, RunnerEnv.DIFF_ERR] at hc

/-- C10 witness. -/
theorem diff_dir_payload_bits_witness :
    (CheckerBase.diff_dir fsPerm pPermE pPermA).2 < 2 ^ 12 ∧
    (CheckerBase.diff_dir fsPerm pPermE pPermA).2 ≠ 0 :=
  ⟨(diff_dir_payload_bits fsPerm pPermE pPermA rfl rfl).1,
    (diff_dir_payload_bits fsPerm pPermE pPermA rfl rfl).2.1.mpr rfl⟩
